import Mathlib

/-!
Verification of the real-time analysis session coordinator: the `useAnalysis`
hook of the frontend (file `use-analysis`).  The hook owns at most one
WebSocket, exposes `{ status, progress, message, result }` to consumers, and
drives them from the socket callbacks `onopen`, `onmessage`, `onerror`,
`onclose` plus the user-facing `startAnalysis`.

The embedding below is a faithful functional translation:

* React state cells become fields of `Coord`; a `setX` call becomes a field
  update.  JS `undefined`/`null` stored in a cell is modelled by `Option`.
* The mutable `socketRef` becomes the `socket` field (id of the current
  channel); every WebSocket ever constructed is kept in `chans`, with its
  transport state, the messages sent on it and the number of `close()` calls
  the hook has made on it, so that channel-lifecycle properties are statable.
* JS numbers occurring as progress values are modelled by `Rat` (they need
  not be integers and are not range-checked by the hook).
* The event layer (`step`) delivers transport events subject to the WHATWG
  WebSocket preconditions: `open` fires only on a connecting socket,
  `message` only on an open socket, `error` only when a connecting or open
  connection fails (the transport itself tears the connection down, after
  which no further `message` fires on it), and `close` once the socket has
  left the connecting phase.
-/

/-- The `AnalysisStatus` union type of the hook:
`'idle' | 'connecting' | 'analyzing' | 'complete' | 'error'`. -/
inductive AnalysisStatus
  | idle
  | connecting
  | analyzing
  | complete
  | error
deriving DecidableEq, Repr

/-- The `AnalysisResult` payload.  The hook passes it through unmodified
(`setResult(data.results)`), so it is modelled as abstract data: one representative
numeric field and an uninterpreted remainder. -/
structure AnalysisResult where
  overall_score : Rat
  payload : List (String × String)
deriving DecidableEq, Repr

/-- Transport state of one WebSocket (readyState). -/
inductive ChannelState
  | connecting
  | isOpen
  | closing
  | closed
deriving DecidableEq, Repr

/-- The request frame sent in `ws.onopen`:
`{ url, target_keyword, user_id }`. -/
structure OutboundMsg where
  url : String
  target_keyword : String
  user_id : String
deriving DecidableEq, Repr

/-- JS `userId || 'guest'`: the sentinel replaces an absent identity and —
because the empty string is falsy in JS — an empty one as well. -/
def jsOrGuest : Option String → String
  | none => "guest"
  | some s => if s = "" then "guest" else s

/-- The fields `ws.onmessage` reads off a parsed frame: `data.type`,
`data.progress`, `data.message`, `data.results`.  `none` models a missing
field (JS `undefined`). -/
structure InboundMsg where
  type : Option String
  progress : Option Rat
  message : Option String
  results : Option AnalysisResult
deriving DecidableEq, Repr

/-- A raw inbound frame: either text on which `JSON.parse` throws, or a
parsed object. -/
inductive Frame
  | notJson
  | parsed (m : InboundMsg)
deriving DecidableEq, Repr

/-- One WebSocket constructed by `startAnalysis`, together with the request
arguments captured by its handlers' closure and bookkeeping used to state
lifecycle properties (`sent`: frames transmitted on it; `closeCalls`: number
of `close()` calls the hook made on it; `hasOpened`: whether its `open`
event has fired). -/
structure Channel where
  id : Nat
  state : ChannelState
  reqUrl : String
  reqKeyword : String
  reqUserId : Option String
  hasOpened : Bool
  sent : List OutboundMsg
  closeCalls : Nat
deriving DecidableEq, Repr

/-- The request frame this channel's `onopen` sends:
`JSON.stringify({ url, target_keyword, user_id: userId || 'guest' })`. -/
def Channel.req (c : Channel) : OutboundMsg :=
  ⟨c.reqUrl, c.reqKeyword, jsOrGuest c.reqUserId⟩

/-- A channel is live while its connection is being established or open —
i.e. it exists as a connection not yet torn down. -/
def Channel.live (c : Channel) : Bool :=
  decide (c.state = ChannelState.connecting ∨ c.state = ChannelState.isOpen)

/-- Model of `WebSocket.close()`: the call is recorded; it tears the connection down
when the socket is still connecting or open, and has no further effect on a
closing/closed socket. -/
def closeChannel (c : Channel) : Channel :=
  if c.live then
    { c with state := ChannelState.closing, closeCalls := c.closeCalls + 1 }
  else
    { c with closeCalls := c.closeCalls + 1 }

/-- Update the channel with the given id. -/
def updChan (cid : Nat) (f : Channel → Channel) : List Channel → List Channel
  | [] => []
  | c :: l => (if c.id = cid then f c else c) :: updChan cid f l

/-- The coordinator state: the four React state cells of the hook, the
`socketRef` (id of the currently owned channel), and the channels. -/
structure Coord where
  status : AnalysisStatus
  progress : Option Rat
  message : Option String
  result : Option AnalysisResult
  socket : Option Nat
  chans : List Channel
  nextId : Nat
deriving DecidableEq, Repr

/-- Initial hook state: `useState('idle')`, `useState(0)`, `useState('')`,
`useState(null)`, `useRef(null)`. -/
def coordInit : Coord :=
  { status := AnalysisStatus.idle
    progress := some 0
    message := some ""
    result := none
    socket := none
    chans := []
    nextId := 0 }

def findChan (s : Coord) (cid : Nat) : Option Channel :=
  s.chans.find? fun c => decide (c.id = cid)

/-- Whether the channel `cid` exists and its readyState is `st`. -/
def chanIs (s : Coord) (cid : Nat) (st : ChannelState) : Bool :=
  match findChan s cid with
  | some c => decide (c.state = st)
  | none => false

/-- Embedding of `startAnalysis(url, keyword, userId?)`: sets status `connecting`,
progress `0`, the connecting status text, clears the result; then closes the
existing socket if one is held (`if (socketRef.current) close()`) — before —
constructing the new WebSocket and storing it in the ref. -/
def startAnalysis (s : Coord) (url keyword : String) (userId : Option String) :
    Coord :=
  let closedChans : List Channel :=
    match s.socket with
    | some cid => updChan cid closeChannel s.chans
    | none => s.chans
  let newChan : Channel :=
    { id := s.nextId
      state := ChannelState.connecting
      reqUrl := url
      reqKeyword := keyword
      reqUserId := userId
      hasOpened := false
      sent := []
      closeCalls := 0 }
  { status := AnalysisStatus.connecting
    progress := some 0
    message := some "Connecting to RankForge AI..."
    result := none
    socket := some s.nextId
    chans := closedChans ++ [newChan]
    nextId := s.nextId + 1 }

/-- Handler `ws.onopen` of channel `cid` (the transport having just moved it to
open): `setStatus('analyzing')` and `ws.send(request)` with the closure's
arguments. -/
def handleOpen (s : Coord) (cid : Nat) : Coord :=
  { s with
      status := AnalysisStatus.analyzing
      chans := updChan cid (fun c =>
        { c with
            state := ChannelState.isOpen
            hasOpened := true
            sent := c.sent ++ [c.req] }) s.chans }

/-- Handler `ws.onmessage` of channel `cid`.  `JSON.parse` failure is caught and
logged (`notJson` branch): no state change.  Otherwise the three `type`
tests run in order; an unrecognized tag falls through with no state change.
Note there is no field validation: a recognized tag is processed even when
its payload fields are absent, and no status guard: the handler does not
consult the current status. -/
def handleMessage (s : Coord) (cid : Nat) : Frame → Coord
  | Frame.notJson => s
  | Frame.parsed m =>
    if m.type = some "progress" then
      { s with progress := m.progress, message := m.message }
    else if m.type = some "complete" then
      { s with
          result := m.results
          status := AnalysisStatus.complete
          chans := updChan cid closeChannel s.chans }
    else if m.type = some "error" then
      { s with
          message := m.message
          status := AnalysisStatus.error
          chans := updChan cid closeChannel s.chans }
    else s

/-- Handler `ws.onerror`: sets the generic connectivity message and status `error`.
It performs no `close()` call. -/
def handleError (s : Coord) : Coord :=
  { s with
      message := some "Connection error. Is the backend running?"
      status := AnalysisStatus.error }

/-- Handler `ws.onclose`: its body is an `if` whose branch is entirely commented
out — no observable effect on the hook's state. -/
def handleClose (s : Coord) : Coord := s

/-- Events driving the coordinator: the user's submit, and the four
transport callbacks of a given channel. -/
inductive Event
  | submit (url keyword : String) (userId : Option String)
  | chanOpened (cid : Nat)
  | chanMessage (cid : Nat) (f : Frame)
  | chanFailed (cid : Nat)
  | chanClosed (cid : Nat)
deriving DecidableEq, Repr

/-- One step of the event-driven coordinator.  Transport preconditions
(WHATWG WebSocket): `open` fires only on a connecting socket; `message`
only on an open socket; `error` only when a connecting or open connection
fails, the transport closing it in the process; `close` once the socket has
left the connecting phase.  An event whose precondition fails is not
delivered. -/
def step (s : Coord) : Event → Coord
  | Event.submit url keyword userId => startAnalysis s url keyword userId
  | Event.chanOpened cid =>
    if chanIs s cid ChannelState.connecting then handleOpen s cid else s
  | Event.chanMessage cid f =>
    if chanIs s cid ChannelState.isOpen then handleMessage s cid f else s
  | Event.chanFailed cid =>
    if chanIs s cid ChannelState.connecting || chanIs s cid ChannelState.isOpen
    then
      handleError
        { s with
            chans := updChan cid (fun c => { c with state := ChannelState.closed })
              s.chans }
    else s
  | Event.chanClosed cid =>
    match findChan s cid with
    | some c =>
      if c.state = ChannelState.connecting then s
      else
        handleClose
          { s with
              chans := updChan cid (fun ch => { ch with state := ChannelState.closed })
                s.chans }
    | none => s

/-- Run a sequence of events. -/
def run (s : Coord) : List Event → Coord
  | [] => s
  | e :: es => run (step s e) es

/-- The snapshot the hook returns to consumers:
`{ status, progress, message, result }`. -/
structure Snapshot where
  status : AnalysisStatus
  progress : Option Rat
  message : Option String
  result : Option AnalysisResult
deriving DecidableEq, Repr

/-- The projected view of the coordinator state. -/
def Coord.view (s : Coord) : Snapshot :=
  ⟨s.status, s.progress, s.message, s.result⟩

/-- A frame is well formed when each recognized tag carries its required
payload fields (unparsable and unrecognized frames are unconstrained: the
handler ignores them). -/
def Frame.wf : Frame → Bool
  | Frame.notJson => true
  | Frame.parsed m =>
    if m.type = some "progress" then m.progress.isSome && m.message.isSome
    else if m.type = some "complete" then m.results.isSome
    else if m.type = some "error" then m.message.isSome
    else true

/-- An event is well formed when any frame it carries is. -/
def Event.wf : Event → Bool
  | Event.chanMessage _ f => f.wf
  | _ => true

/-- Whether an event is an inbound-message delivery. -/
def Event.isMessage : Event → Bool
  | Event.chanMessage _ _ => true
  | _ => false

/-- Progress frames from a list of (value, text) pairs, delivered on
channel `cid`. -/
def progressEvents (cid : Nat) (ps : List (Rat × String)) : List Event :=
  ps.map fun p =>
    Event.chanMessage cid (Frame.parsed ⟨some "progress", some p.1, some p.2, none⟩)

/-- The payload consistency a consumer relies on: a `complete` status comes
with a stored result, an `error` status with a stored message. -/
def PayloadOk (s : Coord) : Prop :=
  (s.status = AnalysisStatus.complete → s.result.isSome = true) ∧
  (s.status = AnalysisStatus.error → s.message.isSome = true)

/-- A session submitted and whose channel has opened. -/
def esOpen : List Event :=
  [Event.submit "https://ex.com" "shoes" none, Event.chanOpened 0]

/-- A sample result payload. -/
def sampleResult : AnalysisResult := ⟨81, []⟩

/-- A session driven to the successful terminal state by a well-formed
`complete` frame. -/
def esComplete : List Event :=
  esOpen ++ [Event.chanMessage 0
    (Frame.parsed ⟨some "complete", none, none, some sampleResult⟩)]

/-- A session preempted by a second submit while analyzing. -/
def esPreempt : List Event :=
  esOpen ++ [Event.submit "https://b.com" "boots" none]

/-- A stray well-formed progress message. -/
def msLateProgress : List Event :=
  [Event.chanMessage 0 (Frame.parsed ⟨some "progress", some 55, some "late", none⟩)]

/-- The channel produced by submitting with an empty (present but falsy)
identity string and letting it open. -/
def chEmptyId : Channel :=
  { id := 0
    state := ChannelState.isOpen
    reqUrl := "https://ex.com"
    reqKeyword := "shoes"
    reqUserId := some ""
    hasOpened := true
    sent := [⟨"https://ex.com", "shoes", "guest"⟩]
    closeCalls := 0 }

/-! ### Basic lemmas about channels and channel-list updates -/

theorem live_iff {c : Channel} :
    c.live = true ↔
      (c.state = ChannelState.connecting ∨ c.state = ChannelState.isOpen) := by
  simp [Channel.live]

theorem live_false_iff {c : Channel} :
    c.live = false ↔
      (c.state ≠ ChannelState.connecting ∧ c.state ≠ ChannelState.isOpen) := by
  simp [Channel.live, not_or]

theorem closeChannel_id (c : Channel) : (closeChannel c).id = c.id := by
  unfold closeChannel; split <;> rfl

theorem closeChannel_live (c : Channel) : (closeChannel c).live = false := by
  unfold closeChannel
  split
  · simp [Channel.live]
  · next h => simpa [Channel.live] using h

theorem closeChannel_sent (c : Channel) : (closeChannel c).sent = c.sent := by
  unfold closeChannel; split <;> rfl

theorem closeChannel_hasOpened (c : Channel) :
    (closeChannel c).hasOpened = c.hasOpened := by
  unfold closeChannel; split <;> rfl

theorem closeChannel_req (c : Channel) : (closeChannel c).req = c.req := by
  unfold closeChannel Channel.req; split <;> rfl

theorem closeChannel_closeCalls (c : Channel) :
    (closeChannel c).closeCalls = c.closeCalls + 1 := by
  unfold closeChannel; split <;> rfl

theorem closeChannel_state_cases (c : Channel) :
    (closeChannel c).state = ChannelState.closing ∨
      (closeChannel c).state = c.state := by
  unfold closeChannel; split
  · exact Or.inl rfl
  · exact Or.inr rfl

theorem updChan_map_id (cid : Nat) (f : Channel → Channel)
    (hf : ∀ c, (f c).id = c.id) (l : List Channel) :
    (updChan cid f l).map Channel.id = l.map Channel.id := by
  induction l with
  | nil => rfl
  | cons a t ih =>
    simp only [updChan, List.map_cons, ih]
    split <;> simp [hf]

theorem mem_updChan {cid : Nat} {f : Channel → Channel} {c' : Channel} :
    ∀ {l : List Channel}, c' ∈ updChan cid f l →
      ∃ c, c ∈ l ∧ ((c.id = cid ∧ c' = f c) ∨ (c.id ≠ cid ∧ c' = c)) := by
  intro l
  induction l with
  | nil => intro h; simp [updChan] at h
  | cons a t ih =>
    intro h
    rw [updChan] at h
    rcases List.mem_cons.mp h with h | h
    · by_cases ha : a.id = cid
      · exact ⟨a, List.mem_cons_self a t, Or.inl ⟨ha, by simpa [ha] using h⟩⟩
      · exact ⟨a, List.mem_cons_self a t, Or.inr ⟨ha, by simpa [ha] using h⟩⟩
    · obtain ⟨c, hc, hor⟩ := ih h
      exact ⟨c, List.mem_cons_of_mem a hc, hor⟩

theorem chanIs_spec {s : Coord} {cid : Nat} {st : ChannelState}
    (h : chanIs s cid st = true) :
    ∃ c, c ∈ s.chans ∧ c.id = cid ∧ c.state = st := by
  unfold chanIs at h
  cases hf : findChan s cid with
  | none => rw [hf] at h; cases h
  | some c =>
    rw [hf] at h
    refine ⟨c, List.mem_of_find?_eq_some hf, ?_, of_decide_eq_true h⟩
    have := List.find?_some hf
    exact of_decide_eq_true this

/-! ### The reachability invariant -/

/-- Invariant of reachable coordinator states: channel ids are `0,…,nextId-1`
in creation order; a live channel is always the currently held socket; an
open channel implies status `analyzing`; a channel's `sent` list is empty
until its `open` event fires and exactly the single request frame
afterwards; a terminal status never coexists with a live channel; the hook
has never called `close()` on a live channel. -/
def CoordInv (s : Coord) : Prop :=
  s.chans.map Channel.id = List.range s.nextId ∧
  (∀ c ∈ s.chans, c.live = true → s.socket = some c.id) ∧
  (∀ c ∈ s.chans, c.state = ChannelState.isOpen →
    s.status = AnalysisStatus.analyzing) ∧
  (∀ c ∈ s.chans,
    (c.hasOpened = false → c.sent = []) ∧
    (c.hasOpened = true → c.sent = [c.req]) ∧
    (c.state = ChannelState.connecting → c.hasOpened = false)) ∧
  ((s.status = AnalysisStatus.complete ∨ s.status = AnalysisStatus.error) →
    ∀ c ∈ s.chans, c.live = false) ∧
  (∀ c ∈ s.chans, c.live = true → c.closeCalls = 0)

theorem coordInv_init : CoordInv coordInit := by
  refine ⟨rfl, ?_, ?_, ?_, ?_, ?_⟩ <;> simp [coordInit]

theorem coordInv_unique {s : Coord}
    (h1 : s.chans.map Channel.id = List.range s.nextId) :
    ∀ c ∈ s.chans, ∀ c' ∈ s.chans, c.id = c'.id → c = c' := by
  have hnd : (s.chans.map Channel.id).Nodup := by
    rw [h1]; exact List.nodup_range s.nextId
  exact fun c hc c' hc' he => List.inj_on_of_nodup_map hnd hc hc' he

theorem coordInv_submit {s : Coord} (h : CoordInv s) (url keyword : String)
    (userId : Option String) : CoordInv (startAnalysis s url keyword userId) := by
  obtain ⟨h1, h2, h3, h4, h5, h6⟩ := h
  unfold startAnalysis
  set closedChans : List Channel :=
    match s.socket with
    | some cid => updChan cid closeChannel s.chans
    | none => s.chans with hcc
  have hdead : ∀ c' ∈ closedChans, c'.live = false := by
    intro c' hc'
    rw [hcc] at hc'
    cases hso : s.socket with
    | none =>
      rw [hso] at hc'
      cases hlv : c'.live with
      | false => rfl
      | true => exact absurd (h2 c' hc' hlv) (by simp [hso])
    | some cid =>
      rw [hso] at hc'
      obtain ⟨c, hc, hor⟩ := mem_updChan hc'
      rcases hor with ⟨_, heq⟩ | ⟨hne, heq⟩
      · rw [heq]; exact closeChannel_live c
      · rw [heq]
        cases hlv : c.live with
        | false => rfl
        | true =>
          have := h2 c hc hlv
          rw [hso] at this
          exact absurd (Option.some.inj this).symm hne
  have hccmap : closedChans.map Channel.id = s.chans.map Channel.id := by
    rw [hcc]
    cases hso : s.socket with
    | none => rfl
    | some cid => exact updChan_map_id cid closeChannel closeChannel_id s.chans
  refine ⟨?_, ?_, ?_, ?_, ?_, ?_⟩
  · simp only [List.map_append, hccmap, h1, List.map_cons, List.map_nil]
    rw [List.range_succ]
  · intro c' hc' hlv
    rcases List.mem_append.mp hc' with hmem | hmem
    · exact absurd hlv (by simp [hdead c' hmem])
    · simp only [List.mem_singleton] at hmem
      subst hmem
      rfl
  · intro c' hc' hst
    rcases List.mem_append.mp hc' with hmem | hmem
    · have := hdead c' hmem
      rw [live_false_iff] at this
      exact absurd hst this.2
    · simp only [List.mem_singleton] at hmem
      subst hmem
      cases hst
  · intro c' hc'
    rcases List.mem_append.mp hc' with hmem | hmem
    · rw [hcc] at hmem
      cases hso : s.socket with
      | none =>
        rw [hso] at hmem
        exact h4 c' hmem
      | some cid =>
        rw [hso] at hmem
        obtain ⟨c, hc, hor⟩ := mem_updChan hmem
        rcases hor with ⟨_, heq⟩ | ⟨_, heq⟩
        · obtain ⟨g1, g2, g3⟩ := h4 c hc
          rw [heq]
          refine ⟨?_, ?_, ?_⟩
          · rw [closeChannel_hasOpened, closeChannel_sent]; exact g1
          · rw [closeChannel_hasOpened, closeChannel_sent, closeChannel_req]
            exact g2
          · intro hst
            rcases closeChannel_state_cases c with hk | hk
            · rw [hst] at hk; cases hk
            · rw [closeChannel_hasOpened]
              exact g3 (by rw [← hk, hst])
        · rw [heq]; exact h4 c hc
    · simp only [List.mem_singleton] at hmem
      subst hmem
      refine ⟨fun _ => rfl, fun hh => ?_, fun _ => rfl⟩
      simp at hh
  · intro hterm
    exact absurd hterm (by simp)
  · intro c' hc' hlv
    rcases List.mem_append.mp hc' with hmem | hmem
    · exact absurd hlv (by simp [hdead c' hmem])
    · simp only [List.mem_singleton] at hmem
      subst hmem
      rfl

theorem coordInv_handleOpen {s : Coord} (h : CoordInv s) {cid : Nat}
    (hg : chanIs s cid ChannelState.connecting = true) :
    CoordInv (handleOpen s cid) := by
  obtain ⟨h1, h2, h3, h4, h5, h6⟩ := h
  obtain ⟨c₀, hc₀, hid₀, hst₀⟩ := chanIs_spec hg
  have huniq := coordInv_unique h1
  have hlv₀ : c₀.live = true := by rw [live_iff]; exact Or.inl hst₀
  have hsock : s.socket = some cid := by rw [h2 c₀ hc₀ hlv₀, hid₀]
  refine ⟨?_, ?_, ?_, ?_, ?_, ?_⟩
  · have hm := updChan_map_id cid
      (fun c => { c with state := ChannelState.isOpen, hasOpened := true,
                         sent := c.sent ++ [c.req] }) (fun c => rfl) s.chans
    show (updChan cid _ s.chans).map Channel.id = List.range s.nextId
    rw [hm, h1]
  · intro c' hc' hlv
    obtain ⟨c, hc, hor⟩ := mem_updChan hc'
    rcases hor with ⟨hcid, heq⟩ | ⟨hne, heq⟩
    · rw [heq]
      show s.socket = some c.id
      rw [hcid, hsock]
    · rw [heq]
      show s.socket = some c.id
      exact h2 c hc (by rw [← heq]; exact hlv)
  · intro c' hc' hst
    rfl
  · intro c' hc'
    obtain ⟨c, hc, hor⟩ := mem_updChan hc'
    rcases hor with ⟨hcid, heq⟩ | ⟨hne, heq⟩
    · have hcc : c = c₀ := huniq c hc c₀ hc₀ (by rw [hcid, hid₀])
      have hop : c.hasOpened = false := by
        obtain ⟨_, _, g3⟩ := h4 c hc
        exact g3 (by rw [hcc]; exact hst₀)
      have hsent : c.sent = [] := (h4 c hc).1 hop
      rw [heq]
      refine ⟨fun hh => ?_, fun _ => ?_, fun hh => ?_⟩
      · simp at hh
      · show c.sent ++ [c.req] = [c.req]
        rw [hsent]; rfl
      · simp at hh
    · rw [heq]; exact h4 c hc
  · intro hterm
    exact absurd hterm (by simp [handleOpen])
  · intro c' hc' hlv
    obtain ⟨c, hc, hor⟩ := mem_updChan hc'
    rcases hor with ⟨hcid, heq⟩ | ⟨hne, heq⟩
    · have hcc : c = c₀ := huniq c hc c₀ hc₀ (by rw [hcid, hid₀])
      rw [heq]
      show c.closeCalls = 0
      rw [hcc]; exact h6 c₀ hc₀ hlv₀
    · rw [heq]
      exact h6 c hc (by rw [← heq]; exact hlv)

theorem coordInv_handleMessage {s : Coord} (h : CoordInv s) {cid : Nat}
    (hg : chanIs s cid ChannelState.isOpen = true) (f : Frame) :
    CoordInv (handleMessage s cid f) := by
  obtain ⟨h1, h2, h3, h4, h5, h6⟩ := h
  obtain ⟨c₀, hc₀, hid₀, hst₀⟩ := chanIs_spec hg
  have huniq := coordInv_unique h1
  have hlv₀ : c₀.live = true := by rw [live_iff]; exact Or.inr hst₀
  have hstatus : s.status = AnalysisStatus.analyzing := h3 c₀ hc₀ hst₀
  have honlylive : ∀ c ∈ s.chans, c.live = true → c.id = cid := by
    intro c hc hlv
    have e1 := h2 c hc hlv
    have e2 := h2 c₀ hc₀ hlv₀
    rw [e2] at e1
    rw [← Option.some.inj e1, hid₀]
  cases f with
  | notJson => exact ⟨h1, h2, h3, h4, h5, h6⟩
  | parsed m =>
    simp only [handleMessage]
    by_cases ht1 : m.type = some "progress"
    · rw [if_pos ht1]
      refine ⟨h1, h2, h3, h4, fun hterm => ?_, h6⟩
      exact absurd hterm (by show ¬(s.status = _ ∨ s.status = _); rw [hstatus]; decide)
    · rw [if_neg ht1]
      by_cases ht2 : m.type = some "complete"
      · rw [if_pos ht2]
        refine ⟨?_, ?_, ?_, ?_, ?_, ?_⟩
        · show (updChan cid closeChannel s.chans).map Channel.id = _
          rw [updChan_map_id cid closeChannel closeChannel_id, h1]
        · intro c' hc' hlv
          obtain ⟨c, hc, hor⟩ := mem_updChan hc'
          rcases hor with ⟨hcid, heq⟩ | ⟨hne, heq⟩
          · rw [heq] at hlv
            exact absurd hlv (by simp [closeChannel_live])
          · rw [heq]
            show s.socket = some c.id
            exact h2 c hc (by rw [← heq]; exact hlv)
        · intro c' hc' hst
          obtain ⟨c, hc, hor⟩ := mem_updChan hc'
          rcases hor with ⟨hcid, heq⟩ | ⟨hne, heq⟩
          · rw [heq] at hst
            have := closeChannel_live c
            rw [live_false_iff] at this
            exact absurd hst this.2
          · have hlv : c.live = true := by
              rw [live_iff]; exact Or.inr (by rw [← heq]; exact hst)
            exact absurd (honlylive c hc hlv) hne
        · intro c' hc'
          obtain ⟨c, hc, hor⟩ := mem_updChan hc'
          rcases hor with ⟨hcid, heq⟩ | ⟨hne, heq⟩
          · obtain ⟨g1, g2, g3⟩ := h4 c hc
            rw [heq]
            refine ⟨?_, ?_, ?_⟩
            · rw [closeChannel_hasOpened, closeChannel_sent]; exact g1
            · rw [closeChannel_hasOpened, closeChannel_sent, closeChannel_req]
              exact g2
            · intro hst
              rcases closeChannel_state_cases c with hk | hk
              · rw [hst] at hk; cases hk
              · rw [closeChannel_hasOpened]
                exact g3 (by rw [← hk, hst])
          · rw [heq]; exact h4 c hc
        · intro _
          intro c' hc'
          obtain ⟨c, hc, hor⟩ := mem_updChan hc'
          rcases hor with ⟨hcid, heq⟩ | ⟨hne, heq⟩
          · rw [heq]; exact closeChannel_live c
          · rw [heq]
            cases hlv : c.live with
            | false => rfl
            | true => exact absurd (honlylive c hc hlv) hne
        · intro c' hc' hlv
          obtain ⟨c, hc, hor⟩ := mem_updChan hc'
          rcases hor with ⟨hcid, heq⟩ | ⟨hne, heq⟩
          · rw [heq] at hlv
            exact absurd hlv (by simp [closeChannel_live])
          · have hlc : c.live = true := by rw [← heq]; exact hlv
            exact absurd (honlylive c hc hlc) hne
      · rw [if_neg ht2]
        by_cases ht3 : m.type = some "error"
        · rw [if_pos ht3]
          refine ⟨?_, ?_, ?_, ?_, ?_, ?_⟩
          · show (updChan cid closeChannel s.chans).map Channel.id = _
            rw [updChan_map_id cid closeChannel closeChannel_id, h1]
          · intro c' hc' hlv
            obtain ⟨c, hc, hor⟩ := mem_updChan hc'
            rcases hor with ⟨hcid, heq⟩ | ⟨hne, heq⟩
            · rw [heq] at hlv
              exact absurd hlv (by simp [closeChannel_live])
            · rw [heq]
              show s.socket = some c.id
              exact h2 c hc (by rw [← heq]; exact hlv)
          · intro c' hc' hst
            obtain ⟨c, hc, hor⟩ := mem_updChan hc'
            rcases hor with ⟨hcid, heq⟩ | ⟨hne, heq⟩
            · rw [heq] at hst
              have := closeChannel_live c
              rw [live_false_iff] at this
              exact absurd hst this.2
            · have hlv : c.live = true := by
                rw [live_iff]; exact Or.inr (by rw [← heq]; exact hst)
              exact absurd (honlylive c hc hlv) hne
          · intro c' hc'
            obtain ⟨c, hc, hor⟩ := mem_updChan hc'
            rcases hor with ⟨hcid, heq⟩ | ⟨hne, heq⟩
            · obtain ⟨g1, g2, g3⟩ := h4 c hc
              rw [heq]
              refine ⟨?_, ?_, ?_⟩
              · rw [closeChannel_hasOpened, closeChannel_sent]; exact g1
              · rw [closeChannel_hasOpened, closeChannel_sent, closeChannel_req]
                exact g2
              · intro hst
                rcases closeChannel_state_cases c with hk | hk
                · rw [hst] at hk; cases hk
                · rw [closeChannel_hasOpened]
                  exact g3 (by rw [← hk, hst])
            · rw [heq]; exact h4 c hc
          · intro _
            intro c' hc'
            obtain ⟨c, hc, hor⟩ := mem_updChan hc'
            rcases hor with ⟨hcid, heq⟩ | ⟨hne, heq⟩
            · rw [heq]; exact closeChannel_live c
            · rw [heq]
              cases hlv : c.live with
              | false => rfl
              | true => exact absurd (honlylive c hc hlv) hne
          · intro c' hc' hlv
            obtain ⟨c, hc, hor⟩ := mem_updChan hc'
            rcases hor with ⟨hcid, heq⟩ | ⟨hne, heq⟩
            · rw [heq] at hlv
              exact absurd hlv (by simp [closeChannel_live])
            · have hlc : c.live = true := by rw [← heq]; exact hlv
              exact absurd (honlylive c hc hlc) hne
        · rw [if_neg ht3]
          exact ⟨h1, h2, h3, h4, h5, h6⟩

theorem closedSetter_live (c : Channel) :
    ({ c with state := ChannelState.closed } : Channel).live = false := by
  simp [Channel.live]

theorem coordInv_chanFailed {s : Coord} (h : CoordInv s) {cid : Nat}
    (hg : (chanIs s cid ChannelState.connecting ||
      chanIs s cid ChannelState.isOpen) = true) :
    CoordInv
      (handleError
        { s with
            chans := updChan cid (fun c => { c with state := ChannelState.closed })
              s.chans }) := by
  obtain ⟨h1, h2, h3, h4, h5, h6⟩ := h
  have hex : ∃ c₀, c₀ ∈ s.chans ∧ c₀.id = cid ∧ c₀.live = true := by
    rcases Bool.or_eq_true_iff.mp hg with hg' | hg'
    · obtain ⟨c₀, hc₀, hid₀, hst₀⟩ := chanIs_spec hg'
      exact ⟨c₀, hc₀, hid₀, by rw [live_iff]; exact Or.inl hst₀⟩
    · obtain ⟨c₀, hc₀, hid₀, hst₀⟩ := chanIs_spec hg'
      exact ⟨c₀, hc₀, hid₀, by rw [live_iff]; exact Or.inr hst₀⟩
  obtain ⟨c₀, hc₀, hid₀, hlv₀⟩ := hex
  have honlylive : ∀ c ∈ s.chans, c.live = true → c.id = cid := by
    intro c hc hlv
    have e1 := h2 c hc hlv
    have e2 := h2 c₀ hc₀ hlv₀
    rw [e2] at e1
    rw [← Option.some.inj e1, hid₀]
  refine ⟨?_, ?_, ?_, ?_, ?_, ?_⟩
  · show (updChan cid (fun c => { c with state := ChannelState.closed })
        s.chans).map Channel.id = _
    rw [updChan_map_id cid (fun c => { c with state := ChannelState.closed })
      (fun c => rfl), h1]
    rfl
  · intro c' hc' hlv
    obtain ⟨c, hc, hor⟩ := mem_updChan hc'
    rcases hor with ⟨hcid, heq⟩ | ⟨hne, heq⟩
    · rw [heq] at hlv
      exact absurd hlv (by simp [closedSetter_live])
    · have hlc : c.live = true := by rw [← heq]; exact hlv
      exact absurd (honlylive c hc hlc) hne
  · intro c' hc' hst
    obtain ⟨c, hc, hor⟩ := mem_updChan hc'
    rcases hor with ⟨hcid, heq⟩ | ⟨hne, heq⟩
    · rw [heq] at hst
      cases hst
    · have hlc : c.live = true := by
        rw [live_iff]; exact Or.inr (by rw [← heq]; exact hst)
      exact absurd (honlylive c hc hlc) hne
  · intro c' hc'
    obtain ⟨c, hc, hor⟩ := mem_updChan hc'
    rcases hor with ⟨hcid, heq⟩ | ⟨hne, heq⟩
    · obtain ⟨g1, g2, g3⟩ := h4 c hc
      rw [heq]
      exact ⟨g1, g2, fun hst => by cases hst⟩
    · rw [heq]; exact h4 c hc
  · intro _
    intro c' hc'
    obtain ⟨c, hc, hor⟩ := mem_updChan hc'
    rcases hor with ⟨hcid, heq⟩ | ⟨hne, heq⟩
    · rw [heq]; exact closedSetter_live c
    · rw [heq]
      cases hlv : c.live with
      | false => rfl
      | true => exact absurd (honlylive c hc hlv) hne
  · intro c' hc' hlv
    obtain ⟨c, hc, hor⟩ := mem_updChan hc'
    rcases hor with ⟨hcid, heq⟩ | ⟨hne, heq⟩
    · rw [heq] at hlv
      exact absurd hlv (by simp [closedSetter_live])
    · have hlc : c.live = true := by rw [← heq]; exact hlv
      exact absurd (honlylive c hc hlc) hne

theorem coordInv_closeAll {s : Coord} (h : CoordInv s) (cid : Nat) :
    CoordInv
      { s with
          chans := updChan cid (fun c => { c with state := ChannelState.closed })
            s.chans } := by
  obtain ⟨h1, h2, h3, h4, h5, h6⟩ := h
  refine ⟨?_, ?_, ?_, ?_, ?_, ?_⟩
  · show (updChan cid (fun c => { c with state := ChannelState.closed })
        s.chans).map Channel.id = _
    rw [updChan_map_id cid (fun c => { c with state := ChannelState.closed })
      (fun c => rfl), h1]
  · intro c' hc' hlv
    obtain ⟨c, hc, hor⟩ := mem_updChan hc'
    rcases hor with ⟨hcid, heq⟩ | ⟨hne, heq⟩
    · rw [heq] at hlv
      exact absurd hlv (by simp [closedSetter_live])
    · rw [heq]
      show s.socket = some c.id
      exact h2 c hc (by rw [← heq]; exact hlv)
  · intro c' hc' hst
    obtain ⟨c, hc, hor⟩ := mem_updChan hc'
    rcases hor with ⟨hcid, heq⟩ | ⟨hne, heq⟩
    · rw [heq] at hst
      cases hst
    · show s.status = AnalysisStatus.analyzing
      exact h3 c hc (by rw [← heq]; exact hst)
  · intro c' hc'
    obtain ⟨c, hc, hor⟩ := mem_updChan hc'
    rcases hor with ⟨hcid, heq⟩ | ⟨hne, heq⟩
    · obtain ⟨g1, g2, g3⟩ := h4 c hc
      rw [heq]
      exact ⟨g1, g2, fun hst => by cases hst⟩
    · rw [heq]; exact h4 c hc
  · intro hterm
    have hall := h5 hterm
    intro c' hc'
    obtain ⟨c, hc, hor⟩ := mem_updChan hc'
    rcases hor with ⟨hcid, heq⟩ | ⟨hne, heq⟩
    · rw [heq]; exact closedSetter_live c
    · rw [heq]; exact hall c hc
  · intro c' hc' hlv
    obtain ⟨c, hc, hor⟩ := mem_updChan hc'
    rcases hor with ⟨hcid, heq⟩ | ⟨hne, heq⟩
    · rw [heq] at hlv
      exact absurd hlv (by simp [closedSetter_live])
    · rw [heq]
      exact h6 c hc (by rw [← heq]; exact hlv)

theorem coordInv_step {s : Coord} (h : CoordInv s) (e : Event) :
    CoordInv (step s e) := by
  cases e with
  | submit url keyword userId => exact coordInv_submit h url keyword userId
  | chanOpened cid =>
    simp only [step]
    by_cases hg : chanIs s cid ChannelState.connecting = true
    · rw [if_pos hg]; exact coordInv_handleOpen h hg
    · rw [if_neg (by simpa using hg)]; exact h
  | chanMessage cid f =>
    simp only [step]
    by_cases hg : chanIs s cid ChannelState.isOpen = true
    · rw [if_pos hg]; exact coordInv_handleMessage h hg f
    · rw [if_neg (by simpa using hg)]; exact h
  | chanFailed cid =>
    simp only [step]
    by_cases hg : (chanIs s cid ChannelState.connecting ||
        chanIs s cid ChannelState.isOpen) = true
    · rw [if_pos hg]; exact coordInv_chanFailed h hg
    · rw [if_neg (by simpa using hg)]; exact h
  | chanClosed cid =>
    simp only [step]
    split
    · split
      · exact h
      · exact coordInv_closeAll h cid
    · exact h

theorem coordInv_run (es : List Event) :
    ∀ s : Coord, CoordInv s → CoordInv (run s es) := by
  induction es with
  | nil => intro s h; exact h
  | cons e es ih => intro s h; exact ih (step s e) (coordInv_step h e)

theorem coordInv_reach (es : List Event) : CoordInv (run coordInit es) :=
  coordInv_run es coordInit coordInv_init

/-! ### Further helper lemmas -/

theorem length_le_one_of_nodup_of_eq {α : Type} {l : List α}
    (hnd : l.Nodup) (hall : ∀ a ∈ l, ∀ b ∈ l, a = b) : l.length ≤ 1 := by
  cases l with
  | nil => simp
  | cons a t =>
    cases t with
    | nil => simp
    | cons b t' =>
      exfalso
      have hab : a = b := hall a (by simp) b (by simp)
      rw [List.nodup_cons] at hnd
      exact hnd.1 (hab ▸ List.mem_cons_self b t')

theorem chans_nodup {s : Coord} (h1 : s.chans.map Channel.id = List.range s.nextId) :
    s.chans.Nodup := by
  have : (s.chans.map Channel.id).Nodup := by
    rw [h1]; exact List.nodup_range s.nextId
  exact this.of_map

theorem id_lt_nextId {s : Coord}
    (h1 : s.chans.map Channel.id = List.range s.nextId) :
    ∀ c ∈ s.chans, c.id < s.nextId := by
  intro c hc
  have : c.id ∈ s.chans.map Channel.id := List.mem_map_of_mem Channel.id hc
  rw [h1, List.mem_range] at this
  exact this

/-- Once a channel has been torn down, no later event revives it. -/
theorem dead_stays_dead {s : Coord} (h : CoordInv s) (e : Event)
    {c : Channel} (hc : c ∈ s.chans) (hdead : c.live = false) :
    ∀ c' ∈ (step s e).chans, c'.id = c.id → c'.live = false := by
  obtain ⟨h1, h2, h3, h4, h5, h6⟩ := h
  have huniq := coordInv_unique h1
  have hsame : ∀ c' ∈ s.chans, c'.id = c.id → c'.live = false := by
    intro c' hc' hid
    rw [huniq c' hc' c hc hid]
    exact hdead
  cases e with
  | submit url keyword userId =>
    intro c' hc' hid
    rcases List.mem_append.mp hc' with hmem | hmem
    · cases hso : s.socket with
      | none =>
        rw [hso] at hmem
        exact hsame c' hmem hid
      | some cid =>
        rw [hso] at hmem
        obtain ⟨c₁, hc₁, hor⟩ := mem_updChan hmem
        rcases hor with ⟨_, heq⟩ | ⟨_, heq⟩
        · rw [heq]; exact closeChannel_live c₁
        · rw [heq]; exact hsame c₁ hc₁ (by rw [← heq]; exact hid)
    · simp only [List.mem_singleton] at hmem
      have hlt := id_lt_nextId h1 c hc
      rw [hmem] at hid
      have hid' : s.nextId = c.id := hid
      rw [← hid'] at hlt
      exact absurd hlt (lt_irrefl s.nextId)
  | chanOpened cid =>
    simp only [step]
    by_cases hg : chanIs s cid ChannelState.connecting = true
    · rw [if_pos hg]
      obtain ⟨c₀, hc₀, hid₀, hst₀⟩ := chanIs_spec hg
      intro c' hc' hid
      obtain ⟨c₁, hc₁, hor⟩ := mem_updChan hc'
      rcases hor with ⟨hcid, heq⟩ | ⟨_, heq⟩
      · exfalso
        have hc₁c : c₁ = c := huniq c₁ hc₁ c hc (by rw [heq] at hid; exact hid)
        have hc₁c₀ : c₁ = c₀ := huniq c₁ hc₁ c₀ hc₀ (by rw [hcid, hid₀])
        have : c.live = true := by
          rw [← hc₁c, hc₁c₀, live_iff]; exact Or.inl hst₀
        rw [this] at hdead; cases hdead
      · rw [heq]; exact hsame c₁ hc₁ (by rw [← heq]; exact hid)
    · rw [if_neg (by simpa using hg)]
      exact hsame
  | chanMessage cid f =>
    simp only [step]
    by_cases hg : chanIs s cid ChannelState.isOpen = true
    · rw [if_pos hg]
      cases f with
      | notJson => exact hsame
      | parsed m =>
        simp only [handleMessage]
        by_cases ht1 : m.type = some "progress"
        · rw [if_pos ht1]; exact hsame
        · rw [if_neg ht1]
          by_cases ht2 : m.type = some "complete"
          · rw [if_pos ht2]
            intro c' hc' hid
            obtain ⟨c₁, hc₁, hor⟩ := mem_updChan hc'
            rcases hor with ⟨_, heq⟩ | ⟨_, heq⟩
            · rw [heq]; exact closeChannel_live c₁
            · rw [heq]; exact hsame c₁ hc₁ (by rw [← heq]; exact hid)
          · rw [if_neg ht2]
            by_cases ht3 : m.type = some "error"
            · rw [if_pos ht3]
              intro c' hc' hid
              obtain ⟨c₁, hc₁, hor⟩ := mem_updChan hc'
              rcases hor with ⟨_, heq⟩ | ⟨_, heq⟩
              · rw [heq]; exact closeChannel_live c₁
              · rw [heq]; exact hsame c₁ hc₁ (by rw [← heq]; exact hid)
            · rw [if_neg ht3]; exact hsame
    · rw [if_neg (by simpa using hg)]
      exact hsame
  | chanFailed cid =>
    simp only [step]
    by_cases hg : (chanIs s cid ChannelState.connecting ||
        chanIs s cid ChannelState.isOpen) = true
    · rw [if_pos hg]
      intro c' hc' hid
      obtain ⟨c₁, hc₁, hor⟩ := mem_updChan hc'
      rcases hor with ⟨_, heq⟩ | ⟨_, heq⟩
      · rw [heq]; exact closedSetter_live c₁
      · rw [heq]; exact hsame c₁ hc₁ (by rw [← heq]; exact hid)
    · rw [if_neg (by simpa using hg)]
      exact hsame
  | chanClosed cid =>
    simp only [step]
    split
    · split
      · exact hsame
      · intro c' hc' hid
        obtain ⟨c₁, hc₁, hor⟩ := mem_updChan hc'
        rcases hor with ⟨_, heq⟩ | ⟨_, heq⟩
        · rw [heq]; exact closedSetter_live c₁
        · rw [heq]; exact hsame c₁ hc₁ (by rw [← heq]; exact hid)
    · exact hsame

/-- When every channel has been torn down, inbound messages are not
delivered and the state is unchanged. -/
theorem messages_noop {s : Coord} (hdead : ∀ c ∈ s.chans, c.live = false) :
    ∀ ms : List Event, (∀ e ∈ ms, e.isMessage = true) → run s ms = s := by
  intro ms
  induction ms with
  | nil => intro _; rfl
  | cons e ms ih =>
    intro hall
    have he := hall e (List.mem_cons_self e ms)
    cases e with
    | chanMessage cid f =>
      have hstep : step s (Event.chanMessage cid f) = s := by
        simp only [step]
        by_cases hg : chanIs s cid ChannelState.isOpen = true
        · exfalso
          obtain ⟨c, hc, _, hst⟩ := chanIs_spec hg
          have := hdead c hc
          rw [live_false_iff] at this
          exact this.2 hst
        · rw [if_neg (by simpa using hg)]
      rw [run, hstep]
      exact ih fun e' he' => hall e' (List.mem_cons_of_mem _ he')
    | submit url keyword userId => simp [Event.isMessage] at he
    | chanOpened cid => simp [Event.isMessage] at he
    | chanFailed cid => simp [Event.isMessage] at he
    | chanClosed cid => simp [Event.isMessage] at he

theorem payloadOk_step {s : Coord} (hP : PayloadOk s) {e : Event}
    (hwf : e.wf = true) : PayloadOk (step s e) := by
  cases e with
  | submit url keyword userId =>
    exact ⟨fun hh => (by cases hh), fun hh => (by cases hh)⟩
  | chanOpened cid =>
    simp only [step]
    by_cases hg : chanIs s cid ChannelState.connecting = true
    · rw [if_pos hg]
      exact ⟨fun hh => (by cases hh), fun hh => (by cases hh)⟩
    · rw [if_neg (by simpa using hg)]; exact hP
  | chanMessage cid f =>
    simp only [step]
    by_cases hg : chanIs s cid ChannelState.isOpen = true
    · rw [if_pos hg]
      cases f with
      | notJson => exact hP
      | parsed m =>
        simp only [Event.wf, Frame.wf] at hwf
        simp only [handleMessage]
        by_cases ht1 : m.type = some "progress"
        · rw [if_pos ht1] at hwf
          rw [if_pos ht1]
          rw [Bool.and_eq_true] at hwf
          exact ⟨fun hh => hP.1 hh, fun _ => hwf.2⟩
        · rw [if_neg ht1] at hwf
          rw [if_neg ht1]
          by_cases ht2 : m.type = some "complete"
          · rw [if_pos ht2] at hwf
            rw [if_pos ht2]
            exact ⟨fun _ => hwf, fun hh => (by cases hh)⟩
          · rw [if_neg ht2] at hwf
            rw [if_neg ht2]
            by_cases ht3 : m.type = some "error"
            · rw [if_pos ht3] at hwf
              rw [if_pos ht3]
              exact ⟨fun hh => (by cases hh), fun _ => hwf⟩
            · rw [if_neg ht3]; exact hP
    · rw [if_neg (by simpa using hg)]; exact hP
  | chanFailed cid =>
    simp only [step]
    by_cases hg : (chanIs s cid ChannelState.connecting ||
        chanIs s cid ChannelState.isOpen) = true
    · rw [if_pos hg]
      exact ⟨fun hh => (by cases hh), fun _ => rfl⟩
    · rw [if_neg (by simpa using hg)]; exact hP
  | chanClosed cid =>
    simp only [step]
    split
    · split
      · exact hP
      · exact hP
    · exact hP

theorem payloadOk_run (es : List Event) :
    ∀ s : Coord, PayloadOk s → (∀ e ∈ es, e.wf = true) →
      PayloadOk (run s es) := by
  induction es with
  | nil => intro s h _; exact h
  | cons e es ih =>
    intro s h hall
    exact ih (step s e) (payloadOk_step h (hall e (List.mem_cons_self e es)))
      fun e' he' => hall e' (List.mem_cons_of_mem e he')

/-- Effect of one well-formed progress frame on an open channel. -/
theorem progress_step_lemma (s : Coord) (cid : Nat) (q : Rat) (txt : String)
    (hopen : chanIs s cid ChannelState.isOpen = true) :
    step s (Event.chanMessage cid
        (Frame.parsed ⟨some "progress", some q, some txt, none⟩))
      = { s with progress := some q, message := some txt } := by
  simp [step, hopen, handleMessage]

/-- The close event never changes the projected snapshot. -/
theorem chanClosed_view (s : Coord) (cid : Nat) :
    (step s (Event.chanClosed cid)).view = s.view := by
  simp only [step]
  split
  · split
    · rfl
    · rfl
  · rfl

/-! ### The claims -/

/-- C6: from every current state (idle, connecting, analyzing, complete or
error), a submit transitions the session to `connecting`, resets progress
to 0, sets the status text to the connecting message, and clears any prior
result, so no residual progress or result from a preempted session is
visible afterwards. -/
theorem submit_resets_view (s : Coord) (url keyword : String)
    (userId : Option String) :
    (step s (Event.submit url keyword userId)).status =
      AnalysisStatus.connecting ∧
    (step s (Event.submit url keyword userId)).progress = some 0 ∧
    (step s (Event.submit url keyword userId)).message =
      some "Connecting to RankForge AI..." ∧
    (step s (Event.submit url keyword userId)).result = none :=
  ⟨rfl, rfl, rfl, rfl⟩

/-- C9: the channel close event by itself never changes the session's
observable snapshot (state, progress, status message, stored result), and a
session receiving only close events keeps its status — in particular a
session in `analyzing` with no further inbound messages stays `analyzing`
indefinitely: there is no idle timeout or maximum-session-duration guard. -/
theorem close_event_no_observable_change (s : Coord) (cid : Nat)
    (cs : List Nat) :
    (step s (Event.chanClosed cid)).view = s.view ∧
    (run s (cs.map Event.chanClosed)).view = s.view ∧
    (run s (cs.map Event.chanClosed)).status = s.status := by
  have hrun : ∀ (ds : List Nat) (t : Coord),
      (run t (ds.map Event.chanClosed)).view = t.view := by
    intro ds
    induction ds with
    | nil => intro t; rfl
    | cons d ds ih =>
      intro t
      rw [List.map_cons, run, ih (step t (Event.chanClosed d)),
        chanClosed_view]
  exact ⟨chanClosed_view s cid, hrun cs s,
    congrArg Snapshot.status (hrun cs s)⟩

/-- C10: a `progress` frame's value is stored verbatim — no range check and
no clamping — so values below 0, above 100, or non-integer rationals are
exposed to consumers exactly as received. -/
theorem progress_stored_verbatim (s : Coord) (cid : Nat) (q : Rat)
    (txt : String) (hopen : chanIs s cid ChannelState.isOpen = true) :
    (step s (Event.chanMessage cid
      (Frame.parsed ⟨some "progress", some q, some txt, none⟩))).progress
        = some q ∧
    (step s (Event.chanMessage cid
      (Frame.parsed ⟨some "progress", some q, some txt, none⟩))).message
        = some txt := by
  rw [progress_step_lemma s cid q txt hopen]
  exact ⟨rfl, rfl⟩

theorem progress_stored_verbatim_witness :
    (step (run coordInit esOpen) (Event.chanMessage 0
      (Frame.parsed ⟨some "progress", some ((301 : Rat)/2), some "x",
        none⟩))).progress = some ((301 : Rat)/2) ∧
    (step (run coordInit esOpen) (Event.chanMessage 0
      (Frame.parsed ⟨some "progress", some ((301 : Rat)/2), some "x",
        none⟩))).message = some "x" :=
  progress_stored_verbatim (run coordInit esOpen) 0 ((301 : Rat)/2) "x"
    (by decide)

/-- C3 counterexample: a frame with the recognized tag `progress` but with
its required fields missing is not a no-op: processing it overwrites the
progress cell (0 becomes undefined), refuting the claim that every frame
not matching one of the three shapes leaves the state unchanged. -/
theorem missing_fields_not_ignored :
    (run coordInit esOpen).progress = some 0 ∧
    (run coordInit (esOpen ++ [Event.chanMessage 0
      (Frame.parsed ⟨some "progress", none, none, none⟩)])).progress
        = none := by decide

/-- C3 amended: frames that are not valid JSON and frames whose `type` tag
is unrecognized or absent never crash and leave the whole state unchanged;
but a frame with a recognized tag is processed even when its required
fields are missing — the (possibly absent) field values are stored as
received. -/
theorem malformed_frame_tolerance (s : Coord) (cid : Nat) (m : InboundMsg) :
    step s (Event.chanMessage cid Frame.notJson) = s ∧
    (m.type ≠ some "progress" → m.type ≠ some "complete" →
      m.type ≠ some "error" →
      step s (Event.chanMessage cid (Frame.parsed m)) = s) ∧
    (m.type = some "progress" → chanIs s cid ChannelState.isOpen = true →
      (step s (Event.chanMessage cid (Frame.parsed m))).progress =
        m.progress ∧
      (step s (Event.chanMessage cid (Frame.parsed m))).message =
        m.message ∧
      (step s (Event.chanMessage cid (Frame.parsed m))).status = s.status)
    := by
  refine ⟨?_, ?_, ?_⟩
  · by_cases hg : chanIs s cid ChannelState.isOpen = true
    · simp [step, hg, handleMessage]
    · simp [step, hg]
  · intro ht1 ht2 ht3
    by_cases hg : chanIs s cid ChannelState.isOpen = true
    · simp [step, hg, handleMessage, ht1, ht2, ht3]
    · simp [step, hg]
  · intro ht hg
    have hstep : step s (Event.chanMessage cid (Frame.parsed m)) =
        { s with progress := m.progress, message := m.message } := by
      simp [step, hg, handleMessage, ht]
    rw [hstep]
    exact ⟨rfl, rfl, rfl⟩

theorem malformed_frame_tolerance_witness :
    step coordInit (Event.chanMessage 0 Frame.notJson) = coordInit ∧
    step coordInit (Event.chanMessage 0
      (Frame.parsed ⟨some "status", none, none, none⟩)) = coordInit :=
  ⟨(malformed_frame_tolerance coordInit 0
      ⟨some "status", none, none, none⟩).1,
   (malformed_frame_tolerance coordInit 0
      ⟨some "status", none, none, none⟩).2.1
     (by decide) (by decide) (by decide)⟩

/-- C4 counterexample: a `complete` frame with the `results` field missing
is processed: the session reaches state `complete` with a null stored
result, refuting the claim that state complete always comes with a
non-null result for any sequence of inbound frames. -/
theorem complete_without_results_reachable :
    (run coordInit (esOpen ++ [Event.chanMessage 0
      (Frame.parsed ⟨some "complete", none, none, none⟩)])).status
        = AnalysisStatus.complete ∧
    (run coordInit (esOpen ++ [Event.chanMessage 0
      (Frame.parsed ⟨some "complete", none, none, none⟩)])).result
        = none := by decide

/-- C4 amended: for event sequences whose recognized frames carry their
required payload fields (well-formed frames), state `complete` implies a
non-null stored result and state `error` implies a non-null status
message; a `complete` frame missing `results` (or an `error` frame missing
`message`) breaks this, as the counterexample shows. -/
theorem terminal_payload_nonnull (es : List Event)
    (h : ∀ e ∈ es, e.wf = true) :
    ((run coordInit es).status = AnalysisStatus.complete →
      (run coordInit es).result.isSome = true) ∧
    ((run coordInit es).status = AnalysisStatus.error →
      (run coordInit es).message.isSome = true) :=
  payloadOk_run es coordInit
    ⟨fun hh => (by cases hh), fun hh => (by cases hh)⟩ h

theorem terminal_payload_nonnull_witness :
    ((run coordInit esComplete).status = AnalysisStatus.complete →
      (run coordInit esComplete).result.isSome = true) ∧
    ((run coordInit esComplete).status = AnalysisStatus.error →
      (run coordInit esComplete).message.isSome = true) :=
  terminal_payload_nonnull esComplete (by decide)

/-- C7: any nonempty sequence of well-formed progress frames received on
the open channel while `analyzing` — monotone or not — never crashes the
machine (the transition function is total), keeps the state `analyzing`,
and leaves progress and message equal to the most recently received
values: last value wins. -/
theorem progress_last_value_wins (s : Coord) (cid : Nat)
    (qs : List (Rat × String)) (q : Rat × String)
    (hopen : chanIs s cid ChannelState.isOpen = true)
    (hstat : s.status = AnalysisStatus.analyzing) :
    (run s (progressEvents cid (qs ++ [q]))).status =
      AnalysisStatus.analyzing ∧
    (run s (progressEvents cid (qs ++ [q]))).progress = some q.1 ∧
    (run s (progressEvents cid (qs ++ [q]))).message = some q.2 := by
  induction qs generalizing s with
  | nil =>
    have h1 : progressEvents cid ([] ++ [q]) =
        [Event.chanMessage cid
          (Frame.parsed ⟨some "progress", some q.1, some q.2, none⟩)] := by
      simp [progressEvents]
    rw [h1, run, run, progress_step_lemma s cid q.1 q.2 hopen]
    exact ⟨hstat, rfl, rfl⟩
  | cons p ps ih =>
    have h1 : progressEvents cid ((p :: ps) ++ [q]) =
        Event.chanMessage cid
          (Frame.parsed ⟨some "progress", some p.1, some p.2, none⟩)
          :: progressEvents cid (ps ++ [q]) := by
      simp [progressEvents]
    rw [h1, run, progress_step_lemma s cid p.1 p.2 hopen]
    exact ih { s with progress := some p.1, message := some p.2 } hopen hstat

theorem progress_last_value_wins_witness :
    (run (run coordInit esOpen)
      (progressEvents 0 ([((40 : Rat), "Crawling"), ((25 : Rat), "Parsing")]
        ++ [((90 : Rat), "Scoring")]))).status = AnalysisStatus.analyzing ∧
    (run (run coordInit esOpen)
      (progressEvents 0 ([((40 : Rat), "Crawling"), ((25 : Rat), "Parsing")]
        ++ [((90 : Rat), "Scoring")]))).progress = some (90 : Rat) ∧
    (run (run coordInit esOpen)
      (progressEvents 0 ([((40 : Rat), "Crawling"), ((25 : Rat), "Parsing")]
        ++ [((90 : Rat), "Scoring")]))).message = some "Scoring" :=
  progress_last_value_wins (run coordInit esOpen) 0
    [((40 : Rat), "Crawling"), ((25 : Rat), "Parsing")]
    ((90 : Rat), "Scoring") (by decide) (by decide)

/-- C5: once the session is terminal (complete or error) and no new submit
has occurred, every channel has been torn down, so any further inbound
messages are not delivered and change nothing; and a frame is only ever
consumed on an open channel, which can only exist while the machine is in
`analyzing` — progress messages are consumed only in that state. -/
theorem terminal_messages_ignored (es ms : List Event) (cid : Nat)
    (hms : ∀ e ∈ ms, e.isMessage = true) :
    (((run coordInit es).status = AnalysisStatus.complete ∨
        (run coordInit es).status = AnalysisStatus.error) →
      run (run coordInit es) ms = run coordInit es) ∧
    (chanIs (run coordInit es) cid ChannelState.isOpen = true →
      (run coordInit es).status = AnalysisStatus.analyzing) := by
  obtain ⟨h1, h2, h3, h4, h5, h6⟩ := coordInv_reach es
  refine ⟨fun hterm => messages_noop (h5 hterm) ms hms, fun hg => ?_⟩
  obtain ⟨c, hc, _, hst⟩ := chanIs_spec hg
  exact h3 c hc hst

theorem terminal_messages_ignored_witness :
    (((run coordInit esComplete).status = AnalysisStatus.complete ∨
        (run coordInit esComplete).status = AnalysisStatus.error) →
      run (run coordInit esComplete) msLateProgress =
        run coordInit esComplete) ∧
    (chanIs (run coordInit esComplete) 0 ChannelState.isOpen = true →
      (run coordInit esComplete).status = AnalysisStatus.analyzing) :=
  terminal_messages_ignored esComplete msLateProgress 0 (by decide)

/-- C1: single-channel invariant: in every reachable state at most one
channel is live (pairwise, any two live channels coincide); after any
submit the only possibly-live channel is the newly created one — the
previously owned channel was torn down inside `startAnalysis` before the
new WebSocket was constructed; and a torn-down channel never becomes live
again under any event, so each preempted channel is closed exactly once. -/
theorem startAnalysis_single_channel (es : List Event) (e : Event)
    (url keyword : String) (userId : Option String) :
    ((run coordInit es).chans.filter Channel.live).length ≤ 1 ∧
    (∀ c ∈ (run coordInit es).chans, ∀ c' ∈ (run coordInit es).chans,
      c.live = true → c'.live = true → c = c') ∧
    (∀ c ∈ (step (run coordInit es) (Event.submit url keyword userId)).chans,
      c.live = true → c.id = (run coordInit es).nextId) ∧
    (∀ c ∈ (run coordInit es).chans, c.live = false →
      ∀ c' ∈ (step (run coordInit es) e).chans, c'.id = c.id →
        c'.live = false) := by
  obtain ⟨h1, h2, h3, h4, h5, h6⟩ := coordInv_reach es
  have huniq := coordInv_unique h1
  have hpair : ∀ c ∈ (run coordInit es).chans,
      ∀ c' ∈ (run coordInit es).chans,
      c.live = true → c'.live = true → c = c' := by
    intro c hc c' hc' hl hl'
    have e1 := h2 c hc hl
    have e2 := h2 c' hc' hl'
    rw [e1] at e2
    exact huniq c hc c' hc' (Option.some.inj e2)
  refine ⟨?_, hpair, ?_, ?_⟩
  · apply length_le_one_of_nodup_of_eq
    · exact (chans_nodup h1).filter Channel.live
    · intro a ha b hb
      rw [List.mem_filter] at ha hb
      exact hpair a ha.1 b hb.1 ha.2 hb.2
  · intro c hc hl
    obtain ⟨g1, g2, g3, g4, g5, g6⟩ :=
      coordInv_step ⟨h1, h2, h3, h4, h5, h6⟩ (Event.submit url keyword userId)
    have hs := g2 c hc hl
    have hsock : (step (run coordInit es)
        (Event.submit url keyword userId)).socket
        = some (run coordInit es).nextId := rfl
    rw [hsock] at hs
    exact (Option.some.inj hs).symm
  · intro c hc hdead c' hc' hid
    exact dead_stays_dead ⟨h1, h2, h3, h4, h5, h6⟩ e hc hdead c' hc' hid

theorem startAnalysis_single_channel_witness :
    ((run coordInit esPreempt).chans.filter Channel.live).length ≤ 1 ∧
    (∀ c ∈ (run coordInit esPreempt).chans,
      ∀ c' ∈ (run coordInit esPreempt).chans,
      c.live = true → c'.live = true → c = c') ∧
    (∀ c ∈ (step (run coordInit esPreempt)
        (Event.submit "https://c.com" "caps" none)).chans,
      c.live = true → c.id = (run coordInit esPreempt).nextId) ∧
    (∀ c ∈ (run coordInit esPreempt).chans, c.live = false →
      ∀ c' ∈ (step (run coordInit esPreempt) (Event.chanClosed 0)).chans,
        c'.id = c.id → c'.live = false) :=
  startAnalysis_single_channel esPreempt (Event.chanClosed 0)
    "https://c.com" "caps" none

/-- C2 counterexample: after submit → open → transport failure, the session
is terminal (`error`) but the hook has performed zero `close()` calls on
the owned channel: `ws.onerror` sets the message and status only and never
closes, refuting the claim that every terminal transition — including the
transport-level error one — has the coordinator close the channel. -/
theorem transport_error_no_coordinator_close :
    (run coordInit (esOpen ++ [Event.chanFailed 0])).status =
      AnalysisStatus.error ∧
    (run coordInit (esOpen ++ [Event.chanFailed 0])).chans.map
      Channel.closeCalls = [0] := by decide

/-- C2 amended: a terminal status never coexists with a live channel; the
terminal transitions driven by server `complete` and `error` messages each
perform exactly one coordinator `close()` call on the channel (its call
count goes from 0 to 1); the transport-error transition performs none —
there the connection has already been torn down by the transport itself,
which is why the channel is still not left open. -/
theorem terminal_channel_closed (es : List Event) (cid : Nat)
    (m : InboundMsg) :
    (((run coordInit es).status = AnalysisStatus.complete ∨
        (run coordInit es).status = AnalysisStatus.error) →
      ∀ c ∈ (run coordInit es).chans, c.live = false) ∧
    (chanIs (run coordInit es) cid ChannelState.isOpen = true →
      (m.type = some "complete" ∨ m.type = some "error") →
      ∀ c ∈ (step (run coordInit es)
          (Event.chanMessage cid (Frame.parsed m))).chans,
        c.id = cid → c.closeCalls = 1) ∧
    (∀ c ∈ (step (run coordInit es) (Event.chanFailed cid)).chans,
      ∀ c' ∈ (run coordInit es).chans, c.id = c'.id →
        c.closeCalls = c'.closeCalls) := by
  obtain ⟨h1, h2, h3, h4, h5, h6⟩ := coordInv_reach es
  have huniq := coordInv_unique h1
  refine ⟨h5, ?_, ?_⟩
  · intro hg hty c' hc' hid
    obtain ⟨c₀, hc₀, hid₀, hst₀⟩ := chanIs_spec hg
    have hlv₀ : c₀.live = true := by rw [live_iff]; exact Or.inr hst₀
    have hcc₀ : c₀.closeCalls = 0 := h6 c₀ hc₀ hlv₀
    have hchans : (step (run coordInit es)
        (Event.chanMessage cid (Frame.parsed m))).chans
        = updChan cid closeChannel (run coordInit es).chans := by
      rcases hty with ht | ht
      · have hne : m.type ≠ some "progress" := by rw [ht]; simp
        simp [step, hg, handleMessage, ht, hne]
      · have hne1 : m.type ≠ some "progress" := by rw [ht]; simp
        have hne2 : m.type ≠ some "complete" := by rw [ht]; simp
        simp [step, hg, handleMessage, ht, hne1, hne2]
    rw [hchans] at hc'
    obtain ⟨c₁, hc₁, hor⟩ := mem_updChan hc'
    rcases hor with ⟨hcid, heq⟩ | ⟨hne, heq⟩
    · have hcc : c₁ = c₀ := huniq c₁ hc₁ c₀ hc₀ (by rw [hcid, hid₀])
      rw [heq, closeChannel_closeCalls, hcc, hcc₀]
    · exact absurd (by rw [heq] at hid; exact hid) hne
  · intro c' hc' c₀ hc₀ hid
    by_cases hg : (chanIs (run coordInit es) cid ChannelState.connecting ||
        chanIs (run coordInit es) cid ChannelState.isOpen) = true
    · have hchans : (step (run coordInit es) (Event.chanFailed cid)).chans
          = updChan cid (fun c => { c with state := ChannelState.closed })
            (run coordInit es).chans := by
        simp [step, hg, handleError]
      rw [hchans] at hc'
      obtain ⟨c₁, hc₁, hor⟩ := mem_updChan hc'
      rcases hor with ⟨hcid, heq⟩ | ⟨hne, heq⟩
      · have hcc : c'.closeCalls = c₁.closeCalls := by rw [heq]
        have hidc : c₁.id = c₀.id := by
          rw [heq] at hid
          exact hid
        rw [hcc, huniq c₁ hc₁ c₀ hc₀ hidc]
      · have hidc : c₁.id = c₀.id := by
          rw [heq] at hid
          exact hid
        rw [heq, huniq c₁ hc₁ c₀ hc₀ hidc]
    · have hstep : step (run coordInit es) (Event.chanFailed cid)
          = run coordInit es := by
        simp only [step]
        rw [if_neg (by simpa using hg)]
      rw [hstep] at hc'
      rw [huniq c' hc' c₀ hc₀ hid]

theorem terminal_channel_closed_witness :
    (((run coordInit esOpen).status = AnalysisStatus.complete ∨
        (run coordInit esOpen).status = AnalysisStatus.error) →
      ∀ c ∈ (run coordInit esOpen).chans, c.live = false) ∧
    (chanIs (run coordInit esOpen) 0 ChannelState.isOpen = true →
      ((⟨some "complete", none, none, some sampleResult⟩ :
          InboundMsg).type = some "complete" ∨
        (⟨some "complete", none, none, some sampleResult⟩ :
          InboundMsg).type = some "error") →
      ∀ c ∈ (step (run coordInit esOpen)
          (Event.chanMessage 0 (Frame.parsed
            ⟨some "complete", none, none, some sampleResult⟩))).chans,
        c.id = 0 → c.closeCalls = 1) ∧
    (∀ c ∈ (step (run coordInit esOpen) (Event.chanFailed 0)).chans,
      ∀ c' ∈ (run coordInit esOpen).chans, c.id = c'.id →
        c.closeCalls = c'.closeCalls) :=
  terminal_channel_closed esOpen 0
    ⟨some "complete", none, none, some sampleResult⟩

/-- C8 counterexample: submitting with the supplied identity "" (present
but falsy in JS) sends `user_id` "guest" rather than the supplied string:
`userId || 'guest'` replaces the empty identity, refuting the claim that
the sent user_id equals the supplied requester identity whenever one is
present. -/
theorem empty_identity_sends_guest :
    (run coordInit [Event.submit "https://ex.com" "shoes" (some ""),
      Event.chanOpened 0]).chans.map Channel.sent
        = [[⟨"https://ex.com", "shoes", "guest"⟩]] ∧
    ("guest" : String) ≠ "" := by decide

/-- C8 amended: per channel, exactly one request frame
`{ url, target_keyword, user_id }` is sent, at the moment the open event
fires (none before, none after); `user_id` equals the supplied identity
when it is present and nonempty, and the sentinel "guest" when it is
absent or the empty string. -/
theorem request_sent_once_on_open (es : List Event) (c : Channel)
    (v : String) (hc : c ∈ (run coordInit es).chans) :
    (c.hasOpened = true →
      c.sent = [⟨c.reqUrl, c.reqKeyword, jsOrGuest c.reqUserId⟩]) ∧
    (c.hasOpened = false → c.sent = []) ∧
    jsOrGuest none = "guest" ∧
    jsOrGuest (some "") = "guest" ∧
    (v ≠ "" → jsOrGuest (some v) = v) := by
  obtain ⟨h1, h2, h3, h4, h5, h6⟩ := coordInv_reach es
  obtain ⟨g1, g2, g3⟩ := h4 c hc
  refine ⟨fun ho => g2 ho, g1, rfl, by simp [jsOrGuest],
    fun hv => by simp [jsOrGuest, hv]⟩

theorem request_sent_once_on_open_witness :
    (chEmptyId.hasOpened = true →
      chEmptyId.sent = [⟨chEmptyId.reqUrl, chEmptyId.reqKeyword,
        jsOrGuest chEmptyId.reqUserId⟩]) ∧
    (chEmptyId.hasOpened = false → chEmptyId.sent = []) ∧
    jsOrGuest none = "guest" ∧
    jsOrGuest (some "") = "guest" ∧
    (("nonempty" : String) ≠ "" → jsOrGuest (some "nonempty") = "nonempty")
    :=
  request_sent_once_on_open
    [Event.submit "https://ex.com" "shoes" (some ""), Event.chanOpened 0]
    chEmptyId "nonempty" (by decide)
